import Mathlib

/-!
Verification of the terminal session-provisioning pipeline of
crates/project/src/terminals.rs: shell quoting, environment composition,
virtual-environment lookup and remote (ssh) command synthesis.

Strings are modelled by Lean `String` (a list of characters); Rust paths
appear either as plain strings (where the source only joins and formats
them) or, for the venv locator, as explicit component lists.
-/

namespace Terminals

/-- The apostrophe character (written via its code point to keep source clean). -/
def squote : Char := Char.ofNat 39

/-- The double-quote character. -/
def dquote : Char := Char.ofNat 34

/-- The backslash character. -/
def bslash : Char := Char.ofNat 92

/-- The nul character; the only input rejected by the quoting routine. -/
def nulChar : Char := Char.ofNat 0

/-- The dollar character. -/
def dollarChar : Char := Char.ofNat 36

/-- The backtick character. -/
def backtickChar : Char := Char.ofNat 96

/-- The colon character, the Unix PATH separator. -/
def colonChar : Char := Char.ofNat 58

/-- Modelled from the spec: the character class that the quoting utility
(`shlex::try_quote`, an external crate, not under src/) leaves bare.
Code points: letters, digits, and `+ - _ / . , : @`
(43, 45, 95, 47, 46, 44, 58, 64). -/
def quote_allowed (c : Char) : Bool :=
  (65 ≤ c.toNat && c.toNat ≤ 90) || (97 ≤ c.toNat && c.toNat ≤ 122) ||
  (48 ≤ c.toNat && c.toNat ≤ 57) ||
  (c.toNat = 43 || c.toNat = 45 || c.toNat = 95 || c.toNat = 47 ||
   c.toNat = 46 || c.toNat = 44 || c.toNat = 58 || c.toNat = 64)

/-- Modelled from the spec: how the quoting utility writes an embedded
apostrophe inside a single-quoted word: it closes the single quote, emits
the apostrophe inside double quotes, and reopens the single quote
(the five characters apostrophe, double quote, apostrophe, double quote,
apostrophe), exactly as exhibited in the end-to-end bytes of the spec. -/
def esc_squote (c : Char) : List Char :=
  if c = squote then [squote, dquote, squote, dquote, squote] else [c]

/-- Modelled from the spec: `shlex::try_quote` (external crate, not under
src/). A word containing nul cannot be quoted; the empty word is rendered
as a pair of double quotes; a word of bare-safe characters is returned
unchanged; anything else is wrapped in single quotes with embedded
apostrophes escaped by `esc_squote`. -/
def try_quote (s : String) : Option String :=
  if s.data.contains nulChar then none
  else if s.data = [] then some (String.mk [dquote, dquote])
  else if s.data.all quote_allowed then some s
  else some (String.mk (squote :: (s.data.flatMap esc_squote ++ [squote])))

/-! ### Environment maps

The source stores the environment in a `HashMap<String, String>`.  The map
is modelled as an association list with unique keys; insertion replaces the
value of an existing key in place and appends new keys, which gives the
deterministic iteration order the spec requires of the map
("keys unique ... must be iterated deterministically"). -/

/-- `HashMap::insert`: replace the value of an existing key, else append. -/
def insert_env : List (String × String) → String → String → List (String × String)
  | [], k, v => [(k, v)]
  | (k0, v0) :: rest, k, v =>
    if k0 = k then (k, v) :: rest else (k0, v0) :: insert_env rest k v

/-- `HashMap::get`. -/
def lookup_env : List (String × String) → String → Option String
  | [], _ => none
  | (k0, v0) :: rest, k => if k0 = k then some v0 else lookup_env rest k

/-- `HashMap::extend`: insert every pair of the second list, in order. -/
def extend_env (e l : List (String × String)) : List (String × String) :=
  l.foldl (fun acc kv => insert_env acc kv.1 kv.2) e

/-- `HashMap::entry(k).or_insert_with(v)`: insert only when the key is absent. -/
def env_default (e : List (String × String)) (k v : String) : List (String × String) :=
  match lookup_env e k with
  | some _ => e
  | none => insert_env e k v

/-! ### Remote command synthesis (`wrap_for_ssh`, terminals.rs lines 437-490) -/

/-- `itertools::join(" ")`: words separated by single spaces. -/
def join_space : List String → String
  | [] => ""
  | [s] => s
  | s :: rest => s ++ " " ++ join_space rest

/-- The command part of the line: an explicit command keeps its program
token unquoted and joins the individually quoted arguments (arguments whose
quoting fails are dropped by `filter_map`); with no command the literal
login-shell fallback is used. -/
def to_run (command : Option (String × List String)) : String :=
  match command with
  | some (cmd, args) => join_space (cmd :: args.filterMap try_quote)
  | none => "exec $\x7bSHELL:-sh\x7d -l"

/-- The `KEY=VALUE ` prefixes: one per environment entry whose key and value
both quote successfully (entries that fail are skipped). -/
def env_changes_entries : List (String × String) → String
  | [] => ""
  | (k, v) :: rest =>
    (match try_quote k, try_quote v with
     | some qk, some qv => qk ++ "=" ++ qv ++ " "
     | _, _ => "") ++ env_changes_entries rest

/-- The full environment prefix string: the `KEY=VALUE ` prefixes followed,
when a venv directory is present and quotes successfully, by a
`PATH=<quoted venv directory>:$PATH ` prefix. -/
def env_changes (env : List (String × String)) (venv_directory : Option String) : String :=
  env_changes_entries env ++
    (match venv_directory with
     | some d =>
       (match try_quote d with
        | some q => "PATH=" ++ q ++ ":$PATH "
        | none => "")
     | none => "")

/-- Rust `Debug` formatting of a path (`format!("cd \x7bpath:?\x7d")`):
the string wrapped in double quotes with double quote, backslash, newline,
tab and carriage return escaped.  This models the `Debug` escapes for the
character range exercised by this code. -/
def esc_debug (c : Char) : List Char :=
  if c = dquote then [bslash, dquote]
  else if c = bslash then [bslash, bslash]
  else if c = Char.ofNat 10 then [bslash, Char.ofNat 110]
  else if c = Char.ofNat 9 then [bslash, Char.ofNat 116]
  else if c = Char.ofNat 13 then [bslash, Char.ofNat 114]
  else [c]

/-- Debug-quoted path used by the non-tilde `cd` branch. -/
def debug_quote (s : String) : String :=
  String.mk (dquote :: (s.data.flatMap esc_debug ++ [dquote]))

/-- `Path::starts_with("~/")`: component-wise, the first component is `~`,
which on the strings of interest is the literal `~` or a `~/` prefix. -/
def starts_with_tilde_slash (p : String) : Bool :=
  p == "~" || p.data.take 2 == [Char.ofNat 126, Char.ofNat 47]

/-- The tilde-trim chain of the source: `trim_start_matches("/")`,
then `trim_start_matches("~")`, then `trim_start_matches("/")`. -/
def trim_tilde (p : String) : String :=
  String.mk (((p.data.dropWhile (fun c => c == Char.ofNat 47)).dropWhile
      (fun c => c == Char.ofNat 126)).dropWhile (fun c => c == Char.ofNat 47))

/-- The composed line handed to `sh -c`: the three working-directory cases
of the source (tilde rewrite, debug-quoted path, bare `cd`). -/
def ssh_command_line (path : Option String) (env_ch : String) (run : String) : String :=
  match path with
  | some p =>
    if starts_with_tilde_slash p then
      "cd \"$HOME/" ++ trim_tilde p ++ "\"; " ++ env_ch ++ " " ++ run
    else
      "cd " ++ debug_quote p ++ "; " ++ env_ch ++ " " ++ run
  | none => "cd; " ++ env_ch ++ " " ++ run

/-- `wrap_for_ssh` (terminals.rs lines 437-490).  The outer quoting of the
composed line is `unwrap`-ped in the source, so its failure aborts the
request: the model returns `none` there.  The program is the literal
`ssh`; the argument vector is the transport arguments, the forced
pseudo-terminal flag `-t`, then the quoted `sh -c` invocation. -/
def wrap_for_ssh (ssh_arguments : List String) (command : Option (String × List String))
    (path : Option String) (env : List (String × String)) (venv_directory : Option String) :
    Option (String × List String) :=
  let commands := ssh_command_line path (env_changes env venv_directory) (to_run command)
  match try_quote commands with
  | none => none
  | some q => some ("ssh", ssh_arguments ++ ["-t", "sh -c " ++ q])

/-! ### PATH splicing (`add_environment_path`, terminals.rs lines 492-503) -/

/-- `std::env::split_paths` on Unix: split on the colon separator. -/
def split_colon : List Char → List (List Char)
  | [] => [[]]
  | c :: rest =>
    if c = colonChar then [] :: split_colon rest
    else
      match split_colon rest with
      | [] => [[c]]
      | seg :: segs => (c :: seg) :: segs

/-- `std::env::join_paths` on Unix: rejoin with colons; fails when any
piece itself contains a colon. -/
def join_colon : List (List Char) → List Char
  | [] => []
  | [s] => s
  | s :: rest => s ++ colonChar :: join_colon rest

/-- String-level split of a PATH value. -/
def split_paths (s : String) : List String :=
  (split_colon s.data).map String.mk

/-- String-level join of PATH entries, failing when an entry contains the
separator (the `join_paths` error surfaced with context
"failed to create PATH env variable"). -/
def join_paths (ps : List String) : Option String :=
  if ps.any (fun p => p.data.contains colonChar) then none
  else some (String.mk (join_colon (ps.map String.data)))

/-- `add_environment_path` (terminals.rs lines 492-503): put `new_path`
ahead of the PATH taken from the map or, failing that, from the inherited
process environment, and store the joined value back under `PATH`. -/
def add_environment_path (env : List (String × String)) (new_path : String)
    (process_path : Option String) : Option (List (String × String)) :=
  let existing :=
    match lookup_env env "PATH" with
    | some p => some p
    | none => process_path
  let env_paths := new_path :: (match existing with
    | some p => split_paths p
    | none => [])
  match join_paths env_paths with
  | none => none
  | some joined => some (insert_env env "PATH" joined)

/-! ### Virtual-environment lookup (terminals.rs lines 296-383)

Paths here need `Path::parent`, so they are modelled by their components:
an absoluteness flag and the list of normal components.  `parent` drops
the last component and is undefined on a bare root or the empty path,
matching `Path::parent`. -/

/-- A path as Rust components. -/
structure PathC where
  absolute : Bool
  comps : List String
deriving DecidableEq, Repr

/-- `Path::parent`. -/
def PathC.parent (p : PathC) : Option PathC :=
  match p.comps with
  | [] => none
  | _ => some ⟨p.absolute, p.comps.dropLast⟩

/-- `Path::join` with a single normal component. -/
def PathC.join (p : PathC) (name : String) : PathC :=
  ⟨p.absolute, p.comps ++ [name]⟩

/-- `VenvSettings`: `Off`, or `On` with the ordered candidate directory
names (the activation-script kind is irrelevant to the locator). -/
inductive VenvSettingsM
  | off
  | on (directories : List String)
deriving DecidableEq, Repr

/-- `VenvSettings::as_option`. -/
def VenvSettingsM.as_option : VenvSettingsM → Option (List String)
  | .off => none
  | .on ds => some ds

/-- `find_venv_in_worktree` (lines 335-357): first candidate directory, in
list order, whose `bin` subdirectory is a directory of the in-memory
worktree (the worktree test is the external predicate `in_tree_is_dir`);
the bin directory name is `bin` on non-Windows targets. -/
def find_venv_in_worktree (in_tree_is_dir : PathC → Bool) (directories : List String)
    (abs_path : PathC) : Option PathC :=
  (directories.map abs_path.join).find? (fun venv_path => in_tree_is_dir (venv_path.join "bin"))

/-- `find_venv_on_filesystem` (lines 359-383): only valid when the path is
in a worktree and the worktree is locally mounted; otherwise the first
candidate, in list order, whose `bin` subdirectory exists on disk
(external predicate `fs_is_dir`). -/
def find_venv_on_filesystem (worktree_found worktree_local : Bool) (fs_is_dir : PathC → Bool)
    (directories : List String) (abs_path : PathC) : Option PathC :=
  if worktree_found && worktree_local then
    (directories.map abs_path.join).find? (fun venv_path => fs_is_dir (venv_path.join "bin"))
  else none

/-- `python_venv_directory` (lines 296-333).  When the path lies in a
worktree the external toolchain service is asked first; a toolchain answer
short-circuits to the grandparent of the toolchain executable (a missing
grandparent makes the whole lookup return none via the question-mark
operators).  Otherwise `Off` policy stops with none, and the `On` policy
tries the in-tree check before the filesystem fallback. -/
def python_venv_directory (worktree_found : Bool) (toolchain : Option PathC)
    (venv_settings : VenvSettingsM) (in_tree_is_dir fs_is_dir : PathC → Bool)
    (worktree_local : Bool) (abs_path : PathC) : Option PathC :=
  match (if worktree_found then toolchain else none) with
  | some toolchain_path => toolchain_path.parent.bind PathC.parent
  | none =>
    match venv_settings.as_option with
    | none => none
    | some directories =>
      match find_venv_in_worktree in_tree_is_dir directories abs_path with
      | some path => some path
      | none => find_venv_on_filesystem worktree_found worktree_local fs_is_dir
          directories abs_path

/-! ### Session composition (`create_terminal`, terminals.rs lines 87-294)

External collaborators (settings snapshot, CLI environment, active project
directory, ssh client, the awaited venv lookup result and the inherited
process PATH) enter as parameters; the rest is the pure plan construction
of the source. -/

/-- The fields of `SpawnInTerminal` read by `create_terminal`. -/
structure SpawnInTerminalM where
  id : Nat
  full_label : String
  label : String
  command_label : String
  command : String
  args : List String
  env : List (String × String)
  cwd : Option String
  hide : Bool
  show_summary : Bool
  show_command : Bool
deriving DecidableEq, Repr

/-- `TerminalKind`. -/
inductive TerminalKindM
  | shell (path : Option String)
  | task (spawn : SpawnInTerminalM)
deriving DecidableEq, Repr

/-- `TaskState` as built at lines 186-196 (status is always Running; the
completion channel is runtime plumbing outside the model). -/
structure TaskStateM where
  id : Nat
  full_label : String
  label : String
  command_label : String
  hide : Bool
  show_summary : Bool
  show_command : Bool
deriving DecidableEq, Repr

/-- `task::Shell`, the shell invocation stored in the plan. -/
inductive ShellM
  | system
  | program (p : String)
  | with_arguments (program : String) (args : List String) (title_override : Option String)
deriving DecidableEq, Repr

/-- The launch plan: the arguments `create_terminal` hands to
`TerminalBuilder::new` (working directory, optional task state, shell
invocation, environment map, remote flag). -/
structure LaunchPlanM where
  local_path : Option String
  task : Option TaskStateM
  shell : ShellM
  env : List (String × String)
  is_ssh : Bool
deriving DecidableEq, Repr

/-- The `VIRTUAL_ENV` injection of lines 200-205: performed whenever the
request is a task and a venv directory was found. -/
def task_env_with_venv (env2 : List (String × String)) (venv : Option String) :
    List (String × String) :=
  match venv with
  | some venv_path => insert_env env2 "VIRTUAL_ENV" venv_path
  | none => env2

/-- The local task branch of lines 229-242: prepend the venv executable
(`bin`) directory to `PATH`; a failure of `add_environment_path` is only
logged (`log_err`), leaving the map unchanged. -/
def task_local_env (env3 : List (String × String)) (venv : Option String)
    (process_path : Option String) : List (String × String) :=
  match venv with
  | some venv_path =>
    (add_environment_path env3 (venv_path ++ "/bin") process_path).getD env3
  | none => env3

/-- `create_terminal` (lines 87-294) as a pure plan builder.  `ssh_details`
is the host label and transport arguments; `venv_lookup` is the awaited
result of `python_venv_directory` (consulted only when a working directory
was resolved, line 135); a `none` result models the aborted request when
the outer quoting of the remote command line fails (`unwrap`). -/
def create_terminal (kind : TerminalKindM) (ssh_details : Option (String × List String))
    (cli_env settings_env : List (String × String)) (settings_shell : ShellM)
    (active_project_directory : Option String) (venv_lookup : Option String)
    (process_path : Option String) : Option LaunchPlanM :=
  let path : Option String :=
    match kind with
    | .shell p => p
    | .task spawn =>
      match spawn.cwd with
      | some cwd => some cwd
      | none => active_project_directory
  let env0 := extend_env cli_env settings_env
  let local_path := if ssh_details.isNone then path else none
  let python_venv_dir : Option String :=
    match path with
    | some _ => venv_lookup
    | none => none
  match kind with
  | .shell _ =>
    match ssh_details with
    | some (host, ssh_arguments) =>
      let env1 := env_default env0 "TERM" "xterm-256color"
      match wrap_for_ssh ssh_arguments none path env1 none with
      | none => none
      | some (program, args) =>
        some { local_path := local_path, task := none,
               shell := .with_arguments program args (some (host ++ " — Terminal")),
               env := [], is_ssh := true }
    | none =>
      some { local_path := local_path, task := none, shell := settings_shell,
             env := env0, is_ssh := false }
  | .task spawn =>
    let task_state : TaskStateM :=
      { id := spawn.id, full_label := spawn.full_label, label := spawn.label,
        command_label := spawn.command_label, hide := spawn.hide,
        show_summary := spawn.show_summary, show_command := spawn.show_command }
    let env2 := extend_env env0 spawn.env
    let env3 := task_env_with_venv env2 python_venv_dir
    match ssh_details with
    | some (host, ssh_arguments) =>
      let env4 := env_default env3 "TERM" "xterm-256color"
      match wrap_for_ssh ssh_arguments (some (spawn.command, spawn.args)) path env4
          python_venv_dir with
      | none => none
      | some (program, args) =>
        some { local_path := local_path, task := some task_state,
               shell := .with_arguments program args (some (host ++ " — Terminal")),
               env := [], is_ssh := true }
    | none =>
      let env5 := task_local_env env3 python_venv_dir process_path
      some { local_path := local_path, task := some task_state,
             shell := .with_arguments spawn.command spawn.args none,
             env := env5, is_ssh := false }

/-! ### A POSIX single-word reader

Used only to state the quoting round trip: it consumes one word, treating
backslash, single-quote and double-quote contexts per POSIX, and fails on
anything that a shell would not take as a literal single word (unquoted
metacharacters or whitespace, unterminated quotes, active expansions). -/

/-- Characters a shell takes literally in an unquoted word: everything
except whitespace (32, 9, 10, 13), the metacharacters
`| & ; < > ( )` (124, 38, 59, 60, 62, 40, 41), the expansion starters
`$` (36) and backtick (96), the quoting characters (34, 39, 92), the glob
and bracket characters `* ? [ ]` (42, 63, 91, 93), and
`# ~ = % \x7b \x7d ! ^` (35, 126, 61, 37, 123, 125, 33, 94), which are
rejected conservatively. -/
def word_safe (c : Char) : Bool :=
  !(c.toNat = 32 || c.toNat = 9 || c.toNat = 10 || c.toNat = 13 ||
    c.toNat = 124 || c.toNat = 38 || c.toNat = 59 || c.toNat = 60 || c.toNat = 62 ||
    c.toNat = 40 || c.toNat = 41 || c.toNat = 36 || c.toNat = 96 ||
    c.toNat = 34 || c.toNat = 39 || c.toNat = 92 ||
    c.toNat = 42 || c.toNat = 63 || c.toNat = 91 || c.toNat = 93 ||
    c.toNat = 35 || c.toNat = 126 || c.toNat = 61 || c.toNat = 37 ||
    c.toNat = 123 || c.toNat = 125 || c.toNat = 33 || c.toNat = 94)

/-- Reader mode: outside quotes, inside single quotes, inside double quotes. -/
inductive PMode
  | normal
  | insingle
  | indouble
deriving DecidableEq, Repr

/-- One-word reader; the accumulator holds the word read so far, reversed. -/
def parse_aux : PMode → List Char → List Char → Option (List Char)
  | .normal, [], acc => some acc
  | .normal, c :: rest, acc =>
    if c = squote then parse_aux .insingle rest acc
    else if c = dquote then parse_aux .indouble rest acc
    else if c = bslash then
      match rest with
      | [] => none
      | d :: rest2 =>
        if d = Char.ofNat 10 then parse_aux .normal rest2 acc
        else parse_aux .normal rest2 (d :: acc)
    else if word_safe c then parse_aux .normal rest (c :: acc)
    else none
  | .insingle, [], _ => none
  | .insingle, c :: rest, acc =>
    if c = squote then parse_aux .normal rest acc
    else parse_aux .insingle rest (c :: acc)
  | .indouble, [], _ => none
  | .indouble, c :: rest, acc =>
    if c = dquote then parse_aux .normal rest acc
    else if c = bslash then
      match rest with
      | [] => none
      | d :: rest2 =>
        if d = dquote ∨ d = bslash ∨ d = dollarChar ∨ d = backtickChar then
          parse_aux .indouble rest2 (d :: acc)
        else if d = Char.ofNat 10 then parse_aux .indouble rest2 acc
        else parse_aux .indouble rest2 (d :: bslash :: acc)
    else if c = dollarChar ∨ c = backtickChar then none
    else parse_aux .indouble rest (c :: acc)

/-- Substring test on character lists: the pattern occurs contiguously
somewhere in the list (used to state the verbatim-containment claims). -/
def contains_seq (pat : List Char) : List Char → Bool
  | [] => pat.isPrefixOf []
  | c :: rest => pat.isPrefixOf (c :: rest) || contains_seq pat rest

/-- Read a complete single word: the whole input must be consumed, and an
empty input holds no word at all. -/
def parse_word (s : String) : Option String :=
  if s.data = [] then none
  else (parse_aux .normal s.data []).map (fun acc => String.mk acc.reverse)

/-! ## Helper lemmas -/

theorem string_ext {a b : String} (h : a.data = b.data) : a = b := by
  cases a; cases b; exact congrArg String.mk h

theorem string_mk_data (s : String) : String.mk s.data = s := rfl

theorem string_data_append (a b : String) : (a ++ b).data = a.data ++ b.data := rfl

theorem isPrefixOf_append_self (l t : List Char) : l.isPrefixOf (l ++ t) = true := by
  induction l with
  | nil => cases t <;> rfl
  | cons c l ih => simp [List.isPrefixOf, ih]

theorem lookup_insert_env (e : List (String × String)) (k v q : String) :
    lookup_env (insert_env e k v) q = if k = q then some v else lookup_env e q := by
  induction e with
  | nil => simp [insert_env, lookup_env]
  | cons kv rest ih =>
    obtain ⟨k0, v0⟩ := kv
    by_cases h : k0 = k
    · subst h
      by_cases hq : k0 = q <;> simp [insert_env, lookup_env, hq]
    · by_cases hq : k0 = q
      · subst hq
        have hk : ¬ k = k0 := fun hh => h hh.symm
        simp [insert_env, lookup_env, h, hk]
      · simp [insert_env, lookup_env, h, hq, ih]

theorem lookup_env_mem {l : List (String × String)} {q v : String}
    (h : lookup_env l q = some v) : q ∈ l.map Prod.fst := by
  induction l with
  | nil => simp [lookup_env] at h
  | cons kv rest ih =>
    obtain ⟨k0, v0⟩ := kv
    by_cases hq : k0 = q
    · simp [hq]
    · simp [lookup_env, hq] at h
      simp [ih h]

theorem lookup_extend_env (e : List (String × String)) {l : List (String × String)}
    (q : String) (h : (l.map Prod.fst).Nodup) :
    lookup_env (extend_env e l) q =
      match lookup_env l q with
      | some v => some v
      | none => lookup_env e q := by
  induction l generalizing e with
  | nil => simp [extend_env, lookup_env]
  | cons kv rest ih =>
    obtain ⟨k0, v0⟩ := kv
    rw [List.map_cons, List.nodup_cons] at h
    have step : extend_env e ((k0, v0) :: rest) = extend_env (insert_env e k0 v0) rest := rfl
    rw [step, ih _ h.2]
    by_cases hq : k0 = q
    · subst hq
      have hrest : lookup_env rest k0 = none := by
        cases hr : lookup_env rest k0 with
        | none => rfl
        | some w => exact absurd (lookup_env_mem hr) h.1
      simp [lookup_env, hrest, lookup_insert_env]
    · simp [lookup_env, hq, lookup_insert_env]

theorem split_colon_ne_nil (l : List Char) : split_colon l ≠ [] := by
  cases l with
  | nil => simp [split_colon]
  | cons c rest =>
    by_cases hc : c = colonChar
    · simp [split_colon, hc]
    · rcases hsp : split_colon rest with _ | ⟨seg, segs⟩ <;> simp [split_colon, hc, hsp]

theorem join_colon_cons_cons (c : Char) (seg : List Char) (segs : List (List Char)) :
    join_colon ((c :: seg) :: segs) = c :: join_colon (seg :: segs) := by
  cases segs <;> simp [join_colon]

theorem join_split_colon (l : List Char) : join_colon (split_colon l) = l := by
  induction l with
  | nil => rfl
  | cons c rest ih =>
    rcases hsp : split_colon rest with _ | ⟨seg, segs⟩
    · exact absurd hsp (split_colon_ne_nil rest)
    · rw [hsp] at ih
      by_cases hc : c = colonChar
      · subst hc
        rw [show split_colon (colonChar :: rest) = [] :: split_colon rest by
          simp [split_colon], hsp]
        simpa [join_colon] using ih
      · rw [show split_colon (c :: rest) = (c :: seg) :: segs by
          simp [split_colon, hc, hsp], join_colon_cons_cons, ih]

theorem split_colon_not_mem (l : List Char) :
    ∀ seg ∈ split_colon l, colonChar ∉ seg := by
  induction l with
  | nil =>
    intro seg h
    simp [split_colon] at h
    subst h
    simp
  | cons c rest ih =>
    intro seg hseg
    by_cases hc : c = colonChar
    · rw [show split_colon (c :: rest) = [] :: split_colon rest by simp [split_colon, hc]]
        at hseg
      rcases List.mem_cons.mp hseg with rfl | h2
      · simp
      · exact ih _ h2
    · rcases hsp : split_colon rest with _ | ⟨seg0, segs⟩
      · exact absurd hsp (split_colon_ne_nil rest)
      · rw [show split_colon (c :: rest) = (c :: seg0) :: segs by
          simp [split_colon, hc, hsp]] at hseg
        rcases List.mem_cons.mp hseg with rfl | h2
        · have h0 : colonChar ∉ seg0 := ih _ (by rw [hsp]; exact List.mem_cons_self _ _)
          simp only [List.mem_cons, not_or]
          exact ⟨fun hh => hc hh.symm, h0⟩
        · exact ih _ (by rw [hsp]; exact List.mem_cons_of_mem _ h2)

theorem join_paths_split (new_path old : String)
    (h : new_path.data.contains colonChar = false) :
    join_paths (new_path :: split_paths old) = some (new_path ++ ":" ++ old) := by
  have hmap : (split_paths old).map String.data = split_colon old.data := by
    simp [split_paths, List.map_map]
    exact List.map_id _
  have hcond : ¬ ((new_path :: split_paths old).any (fun p => p.data.contains colonChar) = true) := by
    simp only [List.any_eq_true, not_exists, not_and]
    intro p hp
    rcases List.mem_cons.mp hp with rfl | hp2
    · simpa using h
    · simp only [split_paths, List.mem_map] at hp2
      obtain ⟨seg, hmem, rfl⟩ := hp2
      have hnm := split_colon_not_mem old.data seg hmem
      simpa using hnm
  unfold join_paths
  rw [if_neg hcond]
  congr 1
  apply string_ext
  show join_colon ((new_path :: split_paths old).map String.data) = (new_path ++ ":" ++ old).data
  have hdata : (new_path ++ ":" ++ old).data = new_path.data ++ colonChar :: old.data := by
    rw [string_data_append, string_data_append,
      show (":" : String).data = [colonChar] by decide]
    simp
  rw [hdata, List.map_cons, hmap]
  rcases hsp : split_colon old.data with _ | ⟨seg, segs⟩
  · exact absurd hsp (split_colon_ne_nil old.data)
  · rw [show join_colon (new_path.data :: seg :: segs) =
        new_path.data ++ colonChar :: join_colon (seg :: segs) by cases segs <;> rfl,
      ← hsp, join_split_colon]

theorem add_environment_path_found (env : List (String × String)) (new_path : String)
    (process_path : Option String) (old : String)
    (h1 : new_path.data.contains colonChar = false)
    (h2 : lookup_env env "PATH" = some old) :
    add_environment_path env new_path process_path =
      some (insert_env env "PATH" (new_path ++ ":" ++ old)) := by
  unfold add_environment_path
  rw [h2]
  simp only
  rw [join_paths_split new_path old h1]

theorem string_append_assoc (a b c : String) : (a ++ b) ++ c = a ++ (b ++ c) := by
  apply string_ext
  simp [string_data_append]

theorem quote_allowed_word_safe {c : Char} (h : quote_allowed c = true) :
    word_safe c = true := by
  simp only [quote_allowed, Bool.or_eq_true, Bool.and_eq_true, decide_eq_true_eq] at h
  simp only [word_safe, Bool.not_eq_true', Bool.or_eq_false_iff, decide_eq_false_iff_not]
  omega

theorem quote_allowed_ne {c : Char} (h : quote_allowed c = true) :
    c ≠ squote ∧ c ≠ dquote ∧ c ≠ bslash := by
  refine ⟨?_, ?_, ?_⟩ <;> rintro rfl <;> exact absurd h (by decide)

theorem parse_bare (cs : List Char) (acc : List Char) (h : cs.all quote_allowed = true) :
    parse_aux .normal cs acc = some (cs.reverse ++ acc) := by
  induction cs generalizing acc with
  | nil => simp [parse_aux]
  | cons c cs ih =>
    rw [List.all_cons, Bool.and_eq_true] at h
    obtain ⟨hc, hcs⟩ := h
    obtain ⟨h1, h2, h3⟩ := quote_allowed_ne hc
    rw [parse_aux.eq_def]
    dsimp only
    rw [if_neg h1, if_neg h2, if_neg h3, if_pos (quote_allowed_word_safe hc), ih _ hcs]
    simp

theorem parse_esc_step (T acc : List Char) :
    parse_aux .insingle (squote :: dquote :: squote :: dquote :: squote :: T) acc =
      parse_aux .insingle T (squote :: acc) := by
  rw [show parse_aux .insingle (squote :: dquote :: squote :: dquote :: squote :: T) acc =
        parse_aux .normal (dquote :: squote :: dquote :: squote :: T) acc from rfl]
  rw [show parse_aux .normal (dquote :: squote :: dquote :: squote :: T) acc =
        parse_aux .indouble (squote :: dquote :: squote :: T) acc from rfl]
  rw [show parse_aux .indouble (squote :: dquote :: squote :: T) acc =
        parse_aux .indouble (dquote :: squote :: T) (squote :: acc) from rfl]
  rw [show parse_aux .indouble (dquote :: squote :: T) (squote :: acc) =
        parse_aux .normal (squote :: T) (squote :: acc) from rfl]
  rw [show parse_aux .normal (squote :: T) (squote :: acc) =
        parse_aux .insingle T (squote :: acc) from by
    rw [parse_aux.eq_def]
    dsimp only
    rw [if_pos rfl]]

theorem parse_esc (cs : List Char) (rest acc : List Char) :
    parse_aux .insingle (cs.flatMap esc_squote ++ squote :: rest) acc =
      parse_aux .normal rest (cs.reverse ++ acc) := by
  induction cs generalizing acc with
  | nil => rfl
  | cons c cs ih =>
    by_cases hc : c = squote
    · subst hc
      rw [show (squote :: cs).flatMap esc_squote ++ squote :: rest =
          squote :: dquote :: squote :: dquote :: squote ::
            (cs.flatMap esc_squote ++ squote :: rest) by
        simp [esc_squote]]
      rw [parse_esc_step, ih]
      simp
    · rw [show (c :: cs).flatMap esc_squote ++ squote :: rest =
          c :: (cs.flatMap esc_squote ++ squote :: rest) by simp [esc_squote, hc]]
      rw [parse_aux.eq_def]
      dsimp only
      rw [if_neg hc, ih]
      simp

theorem env_changes_entries_append (l1 l2 : List (String × String)) :
    env_changes_entries (l1 ++ l2) = env_changes_entries l1 ++ env_changes_entries l2 := by
  induction l1 with
  | nil => simp [env_changes_entries]
  | cons kv rest ih =>
    obtain ⟨k, v⟩ := kv
    simp only [List.cons_append, env_changes_entries, List.append_eq, ih, string_append_assoc]

theorem find_first {α} (p : α → Bool) (l1 l2 : List α) (a : α)
    (h1 : ∀ x ∈ l1, p x = false) (h2 : p a = true) :
    List.find? p (l1 ++ a :: l2) = some a := by
  induction l1 with
  | nil => simpa using List.find?_cons_of_pos l2 h2
  | cons b l1 ih =>
    have hb : p b = false := h1 b (List.mem_cons_self _ _)
    rw [List.cons_append, List.find?_cons_of_neg _ (by simp [hb])]
    exact ih (fun x hx => h1 x (List.mem_cons_of_mem _ hx))

theorem parse_normal_squote (T acc : List Char) :
    parse_aux .normal (squote :: T) acc = parse_aux .insingle T acc := by
  rw [parse_aux.eq_def]
  dsimp only
  rw [if_pos rfl]

theorem string_empty_append (s : String) : "" ++ s = s := by
  apply string_ext
  rw [string_data_append]
  exact congrArg (fun l => l ++ s.data) rfl

theorem add_env_path_lookup_other (env : List (String × String)) (new_path : String)
    (pp : Option String) (k : String) (hk : ¬ "PATH" = k) :
    lookup_env ((add_environment_path env new_path pp).getD env) k = lookup_env env k := by
  unfold add_environment_path
  dsimp only
  split
  · rfl
  · rename_i j heq
    dsimp only [Option.getD]
    rw [lookup_insert_env]
    exact if_neg hk

/-! ## The claims -/

/-- C8: whenever the quoting routine succeeds on a string, reading its
output back as a single POSIX shell word returns exactly the original
string: a quote-then-parse round trip, for every string (in the model the
only strings rejected by the quoting routine are those containing nul). -/
theorem c8_quote_round_trip (s q : String) (h : try_quote s = some q) :
    parse_word q = some s := by
  unfold try_quote at h
  by_cases h1 : s.data.contains nulChar = true
  · rw [if_pos h1] at h
    exact absurd h (by simp)
  · rw [if_neg h1] at h
    by_cases h2 : s.data = []
    · rw [if_pos h2] at h
      obtain rfl : String.mk [dquote, dquote] = q := Option.some.inj h
      have hs : s = "" := string_ext h2
      subst hs
      decide
    · rw [if_neg h2] at h
      by_cases h3 : s.data.all quote_allowed = true
      · rw [if_pos h3] at h
        obtain rfl : s = q := Option.some.inj h
        unfold parse_word
        rw [if_neg h2, parse_bare s.data [] h3]
        simp [string_mk_data]
      · rw [if_neg h3] at h
        obtain rfl : String.mk (squote :: (s.data.flatMap esc_squote ++ [squote])) = q :=
          Option.some.inj h
        unfold parse_word
        rw [if_neg (by simp)]
        rw [show (String.mk (squote :: (s.data.flatMap esc_squote ++ [squote]))).data =
            squote :: (s.data.flatMap esc_squote ++ [squote]) from rfl]
        rw [parse_normal_squote,
          show s.data.flatMap esc_squote ++ [squote] =
            s.data.flatMap esc_squote ++ squote :: [] from rfl,
          parse_esc s.data [] []]
        rw [show parse_aux .normal [] (s.data.reverse ++ []) =
            some (s.data.reverse ++ []) from rfl]
        simp [string_mk_data]

/-- C8 witness: the round trip at the concrete string `foo bar`. -/
theorem c8_witness :
    try_quote "foo bar" = some "\x27foo bar\x27" ∧
    parse_word "\x27foo bar\x27" = some "foo bar" :=
  ⟨by decide, c8_quote_round_trip "foo bar" "\x27foo bar\x27" (by decide)⟩

/-- C1 counterexample: at the spec's end-to-end scenario the synthesizer
does return program `ssh` with `-t` in second-to-last position, but the
final `sh -c` string differs from the byte string the claim demands: the
code has no stray `<` after the opening quote and splices the venv root
(`/home/u/proj/.venv`), not its `bin` subdirectory, into the `PATH`
prefix. -/
theorem c1_counterexample :
    wrap_for_ssh ["ssh", "host"] (some ("pytest", ["-k", "foo bar"])) (some "/home/u/proj")
        [] (some "/home/u/proj/.venv") =
      some ("ssh", ["ssh", "host", "-t",
        "sh -c \x27cd \"/home/u/proj\"; PATH=/home/u/proj/.venv:$PATH  pytest -k \x27\"\x27\"\x27foo bar\x27\"\x27\"\x27\x27"]) ∧
    ("sh -c \x27cd \"/home/u/proj\"; PATH=/home/u/proj/.venv:$PATH  pytest -k \x27\"\x27\"\x27foo bar\x27\"\x27\"\x27\x27" : String) ≠
      "sh -c \x27<cd \"/home/u/proj\"; PATH=/home/u/proj/.venv/bin:$PATH  pytest -k \x27\"\x27\"\x27foo bar\x27\"\x27\"\x27\x27" := by
  constructor
  · decide
  · decide

/-- C1 (amended): for the remote task request with command `pytest`,
arguments `-k`, `foo bar`, working directory `/home/u/proj`, transport
arguments `ssh host` and a venv found at `/home/u/proj/.venv`, the
synthesizer returns program `ssh` and the argument vector whose last two
elements are `-t` and the single string
`sh -c \x27cd "/home/u/proj"; PATH=/home/u/proj/.venv:$PATH  pytest -k \x27"\x27"\x27foo bar\x27"\x27"\x27\x27`
(the venv root, not its bin directory, lands in the PATH prefix, and there
is no `<` after the opening quote). -/
theorem c1_remote_task_synthesis :
    wrap_for_ssh ["ssh", "host"] (some ("pytest", ["-k", "foo bar"])) (some "/home/u/proj")
        [] (some "/home/u/proj/.venv") =
      some ("ssh", ["ssh", "host", "-t",
        "sh -c \x27cd \"/home/u/proj\"; PATH=/home/u/proj/.venv:$PATH  pytest -k \x27\"\x27\"\x27foo bar\x27\"\x27\"\x27\x27"]) := by
  decide

/-- C2: evaluation of the remote environment-prefix builder at the venv
directory `/home/u/proj/.venv`: the quoted path spliced into the
`PATH=...:$PATH ` prefix is the venv directory itself, not its executable
(`bin`) subdirectory as the claim and the spec state — the failing input
of the recorded code bug. -/
theorem c2_path_prefix_uses_venv_root :
    env_changes [] (some "/home/u/proj/.venv") = "PATH=/home/u/proj/.venv:$PATH " ∧
    env_changes [] (some "/home/u/proj/.venv") ≠ "PATH=/home/u/proj/.venv/bin:$PATH " := by
  constructor
  · decide
  · decide

/-- C3: for every working directory beginning with the tilde-slash
pattern the synthesized line rewrites it to `cd "$HOME/<trimmed>"; ...`
(so the line always begins with the unquoted `$HOME` form), and at the
concrete directory `~/foo bar` the full remote invocation contains
`cd "$HOME/foo bar";` verbatim and no tilde character at all — in
particular no shell-quoted literal tilde. -/
theorem c3_tilde_rewrite :
    (∀ (p ec run : String),
        p.data.take 2 = [Char.ofNat 126, Char.ofNat 47] →
        ssh_command_line (some p) ec run =
            "cd \"$HOME/" ++ trim_tilde p ++ "\"; " ++ ec ++ " " ++ run ∧
        ("cd \"$HOME/").data.isPrefixOf (ssh_command_line (some p) ec run).data = true) ∧
    (wrap_for_ssh ["ssh", "host"] none (some "~/foo bar") [] none =
        some ("ssh", ["ssh", "host", "-t",
          "sh -c \x27cd \"$HOME/foo bar\";  exec $\x7bSHELL:-sh\x7d -l\x27"]) ∧
      contains_seq ("cd \"$HOME/foo bar\";").data
        ("sh -c \x27cd \"$HOME/foo bar\";  exec $\x7bSHELL:-sh\x7d -l\x27").data = true ∧
      ("sh -c \x27cd \"$HOME/foo bar\";  exec $\x7bSHELL:-sh\x7d -l\x27").data.contains
        (Char.ofNat 126) = false) := by
  constructor
  · intro p ec run h
    have hcond : starts_with_tilde_slash p = true := by
      simp [starts_with_tilde_slash, h]
    have e : ssh_command_line (some p) ec run =
        "cd \"$HOME/" ++ trim_tilde p ++ "\"; " ++ ec ++ " " ++ run := by
      simp [ssh_command_line, hcond]
    refine ⟨e, ?_⟩
    rw [e]
    simp only [string_data_append, List.append_assoc]
    exact isPrefixOf_append_self _ _
  · refine ⟨by decide, by decide, by decide⟩

/-- C3 witness: the rewrite applied at the concrete directory
`~/foo bar` with empty environment prefix and command `pwd`. -/
theorem c3_witness :
    ("~/foo bar").data.take 2 = [Char.ofNat 126, Char.ofNat 47] ∧
    ssh_command_line (some "~/foo bar") "" "pwd" = "cd \"$HOME/foo bar\";  pwd" :=
  ⟨by decide,
   ((c3_tilde_rewrite.1 "~/foo bar" "" "pwd" (by decide)).1).trans (by decide)⟩

/-- C7: an argument whose quoting fails is dropped and synthesis is
unchanged; an environment entry whose key or value fails to quote is
dropped and synthesis is unchanged; but when the outer quoting of the
whole composed line fails the synthesizer returns nothing (the aborted
request), and when it succeeds the full invocation is produced. -/
theorem c7_quoting_failures :
    (∀ (ssh_arguments : List String) (cmd : String) (pre post : List String) (a : String)
        (path : Option String) (env : List (String × String)) (venv : Option String),
        try_quote a = none →
        wrap_for_ssh ssh_arguments (some (cmd, pre ++ a :: post)) path env venv =
          wrap_for_ssh ssh_arguments (some (cmd, pre ++ post)) path env venv) ∧
    (∀ (ssh_arguments : List String) (c : Option (String × List String)) (k v : String)
        (pre post : List (String × String)) (path : Option String) (venv : Option String),
        try_quote k = none ∨ try_quote v = none →
        wrap_for_ssh ssh_arguments c path (pre ++ (k, v) :: post) venv =
          wrap_for_ssh ssh_arguments c path (pre ++ post) venv) ∧
    (∀ (ssh_arguments : List String) (c : Option (String × List String))
        (path : Option String) (env : List (String × String)) (venv : Option String),
        try_quote (ssh_command_line path (env_changes env venv) (to_run c)) = none →
        wrap_for_ssh ssh_arguments c path env venv = none) ∧
    (∀ (ssh_arguments : List String) (c : Option (String × List String))
        (path : Option String) (env : List (String × String)) (venv : Option String)
        (q : String),
        try_quote (ssh_command_line path (env_changes env venv) (to_run c)) = some q →
        wrap_for_ssh ssh_arguments c path env venv =
          some ("ssh", ssh_arguments ++ ["-t", "sh -c " ++ q])) := by
  refine ⟨?_, ?_, ?_, ?_⟩
  · intro ssh_arguments cmd pre post a path env venv h
    have e : to_run (some (cmd, pre ++ a :: post)) = to_run (some (cmd, pre ++ post)) := by
      simp [to_run, List.filterMap_append, List.filterMap_cons, h]
    unfold wrap_for_ssh
    rw [e]
  · intro ssh_arguments c k v pre post path venv h
    have e : ∀ venv2, env_changes (pre ++ (k, v) :: post) venv2 =
        env_changes (pre ++ post) venv2 := by
      intro venv2
      have e2 : env_changes_entries ((k, v) :: post) = env_changes_entries post := by
        rcases h with hk | hv
        · simp [env_changes_entries, hk, string_empty_append]
        · rcases hq : try_quote k with _ | qk <;>
            simp [env_changes_entries, hq, hv, string_empty_append]
      simp [env_changes, env_changes_entries_append, e2]
    unfold wrap_for_ssh
    rw [e]
  · intro ssh_arguments c path env venv h
    unfold wrap_for_ssh
    dsimp only
    rw [h]
  · intro ssh_arguments c path env venv q h
    unfold wrap_for_ssh
    dsimp only
    rw [h]

/-- C7 witness: a nul-containing argument is dropped with synthesis
succeeding, a nul-containing environment value is dropped likewise, and a
nul-containing working directory makes the outer quoting, and with it the
whole request, fail. -/
theorem c7_witness :
    try_quote "a\x00b" = none ∧
    wrap_for_ssh ["ssh", "h"] (some ("ls", ["ok", "a\x00b"])) none [] none =
      wrap_for_ssh ["ssh", "h"] (some ("ls", ["ok"])) none [] none ∧
    wrap_for_ssh ["ssh", "h"] none none [("K", "v\x00")] none =
      wrap_for_ssh ["ssh", "h"] none none [] none ∧
    wrap_for_ssh ["ssh", "h"] none (some "x\x00") [] none = none :=
  ⟨by decide,
   c7_quoting_failures.1 ["ssh", "h"] "ls" ["ok"] [] "a\x00b" none [] none (by decide),
   c7_quoting_failures.2.1 ["ssh", "h"] none "K" "v\x00" [] [] none none (Or.inr (by decide)),
   c7_quoting_failures.2.2.1 ["ssh", "h"] none (some "x\x00") [] none (by decide)⟩

/-- C10 (implicit): the program token of an explicit command is spliced
into the `sh -c` line without any quoting — the line always carries the
program bytes verbatim (head position of the run part, and verbatim
substring of the composed line), while arguments pass through the quoting
routine; concretely a program containing spaces, `$(...)` and `;` reaches
the line untouched even though quoting it would have wrapped it. -/
theorem c10_program_token_unquoted :
    (∀ (cmd : String) (args : List String),
        (to_run (some (cmd, args))).data.take cmd.data.length = cmd.data) ∧
    (∀ (cmd : String) (args : List String) (path : Option String)
        (env : List (String × String)) (venv : Option String),
        ∃ pre suf,
          (ssh_command_line path (env_changes env venv) (to_run (some (cmd, args)))).data =
            pre ++ cmd.data ++ suf) ∧
    (to_run (some ("echo $(uname); rm -rf", ["a b"])) =
        "echo $(uname); rm -rf \x27a b\x27" ∧
      contains_seq ("echo $(uname); rm -rf").data
        (ssh_command_line none (env_changes [] none)
          (to_run (some ("echo $(uname); rm -rf", ["a b"])))).data = true ∧
      try_quote "echo $(uname); rm -rf" ≠ some "echo $(uname); rm -rf") := by
  have hrun : ∀ (cmd : String) (args : List String), ∃ suf,
      (to_run (some (cmd, args))).data = cmd.data ++ suf := by
    intro cmd args
    rcases hq : args.filterMap try_quote with _ | ⟨q, qs⟩
    · exact ⟨[], by simp [to_run, join_space, hq]⟩
    · refine ⟨(" " ++ join_space (q :: qs)).data, ?_⟩
      simp only [to_run, join_space, hq]
      cases qs <;> simp [string_data_append, List.append_assoc, join_space]
  refine ⟨?_, ?_, ?_⟩
  · intro cmd args
    obtain ⟨suf, hs⟩ := hrun cmd args
    rw [hs]
    exact List.take_left _ _
  · intro cmd args path env venv
    obtain ⟨suf, hs⟩ := hrun cmd args
    have hline : ∀ ec : String, ∃ pre,
        (ssh_command_line path ec (to_run (some (cmd, args)))).data =
          pre ++ (to_run (some (cmd, args))).data := by
      intro ec
      rcases path with _ | p
      · exact ⟨("cd; " ++ ec ++ " ").data, by simp [ssh_command_line, string_data_append]⟩
      · by_cases ht : starts_with_tilde_slash p = true
        · exact ⟨("cd \"$HOME/" ++ trim_tilde p ++ "\"; " ++ ec ++ " ").data, by
            simp [ssh_command_line, ht, string_data_append]⟩
        · exact ⟨("cd " ++ debug_quote p ++ "; " ++ ec ++ " ").data, by
            simp [ssh_command_line, ht, string_data_append]⟩
    obtain ⟨pre, hp⟩ := hline (env_changes env venv)
    exact ⟨pre, suf, by rw [hp, hs, List.append_assoc]⟩
  · refine ⟨by decide, by decide, by decide⟩

/-- C4: environment composition layers inherited, then settings, then
task, each layer overriding earlier layers for the same key; at the
concrete instance the composed map is exactly A to 2, B to 3, C to 3; and
for a task with a found venv the final map carries `VIRTUAL_ENV` and a
`PATH` beginning with the venv executable (`bin`) directory followed by
the separator and the previous `PATH`. -/
theorem c4_environment_precedence :
    (∀ (inherited settings task : List (String × String)) (q v : String),
        (settings.map Prod.fst).Nodup → (task.map Prod.fst).Nodup →
        ((lookup_env task q = some v →
            lookup_env (extend_env (extend_env inherited settings) task) q = some v) ∧
          (lookup_env task q = none → lookup_env settings q = some v →
            lookup_env (extend_env (extend_env inherited settings) task) q = some v) ∧
          (lookup_env task q = none → lookup_env settings q = none →
            lookup_env (extend_env (extend_env inherited settings) task) q =
              lookup_env inherited q))) ∧
    extend_env (extend_env [("A", "1")] [("A", "2"), ("B", "2")]) [("B", "3"), ("C", "3")] =
      [("A", "2"), ("B", "3"), ("C", "3")] ∧
    (∀ (env2 : List (String × String)) (venv_path : String) (pp : Option String),
        lookup_env (task_local_env (task_env_with_venv env2 (some venv_path))
          (some venv_path) pp) "VIRTUAL_ENV" = some venv_path) ∧
    (∀ (env3 : List (String × String)) (venv_path old : String) (pp : Option String),
        (venv_path ++ "/bin").data.contains colonChar = false →
        lookup_env env3 "PATH" = some old →
        lookup_env (task_local_env env3 (some venv_path) pp) "PATH" =
          some (venv_path ++ "/bin" ++ ":" ++ old)) := by
  refine ⟨?_, by decide, ?_, ?_⟩
  · intro inherited settings task q v hs ht
    have L := lookup_extend_env (extend_env inherited settings) q ht
    refine ⟨?_, ?_, ?_⟩
    · intro h
      rw [L, h]
    · intro h1 h2
      rw [L, h1]
      show lookup_env (extend_env inherited settings) q = some v
      rw [lookup_extend_env inherited q hs, h2]
    · intro h1 h2
      rw [L, h1]
      show lookup_env (extend_env inherited settings) q = lookup_env inherited q
      rw [lookup_extend_env inherited q hs, h2]
  · intro env2 venv_path pp
    have hv : lookup_env (task_env_with_venv env2 (some venv_path)) "VIRTUAL_ENV" =
        some venv_path := by
      show lookup_env (insert_env env2 "VIRTUAL_ENV" venv_path) "VIRTUAL_ENV" = some venv_path
      rw [lookup_insert_env]
      simp
    show lookup_env ((add_environment_path (task_env_with_venv env2 (some venv_path))
        (venv_path ++ "/bin") pp).getD (task_env_with_venv env2 (some venv_path)))
        "VIRTUAL_ENV" = some venv_path
    rw [add_env_path_lookup_other _ _ _ _ (by decide)]
    exact hv
  · intro env3 venv_path old pp hcol hold
    show lookup_env ((add_environment_path env3 (venv_path ++ "/bin") pp).getD env3)
        "PATH" = some (venv_path ++ "/bin" ++ ":" ++ old)
    rw [add_environment_path_found env3 (venv_path ++ "/bin") pp old hcol hold]
    dsimp only [Option.getD]
    rw [lookup_insert_env]
    simp

/-- C4 witness: the precedence instance on the concrete maps, the
`VIRTUAL_ENV` injection and the `PATH` prepend at a concrete venv. -/
theorem c4_witness :
    lookup_env (extend_env (extend_env [("A", "1")] [("A", "2"), ("B", "2")])
      [("B", "3"), ("C", "3")]) "A" = some "2" ∧
    lookup_env (task_local_env (task_env_with_venv [("PATH", "/usr/bin")]
      (some "/proj/.venv")) (some "/proj/.venv") none) "VIRTUAL_ENV" = some "/proj/.venv" ∧
    lookup_env (task_local_env [("PATH", "/usr/bin")] (some "/proj/.venv") none) "PATH" =
      some "/proj/.venv/bin:/usr/bin" :=
  ⟨(c4_environment_precedence.1 [("A", "1")] [("A", "2"), ("B", "2")] [("B", "3"), ("C", "3")]
      "A" "2" (by decide) (by decide)).2.1 (by decide) (by decide),
   c4_environment_precedence.2.2.1 [("PATH", "/usr/bin")] "/proj/.venv" none,
   (c4_environment_precedence.2.2.2 [("PATH", "/usr/bin")] "/proj/.venv" "/usr/bin" none
      (by decide) (by decide)).trans (by decide)⟩

/-- C5: the venv lookup asks the toolchain first and, when the toolchain
answers, returns the grandparent of the toolchain executable whatever the
policy, candidate lists or probes say; with no toolchain answer the `Off`
policy stops with none for every in-tree and filesystem predicate (no
probing); otherwise the in-tree check runs before the filesystem
fallback, and each check returns the first matching candidate in
candidate-list order. -/
theorem c5_venv_lookup_order :
    (∀ (tc : PathC) (settings : VenvSettingsM) (in_tree fs : PathC → Bool)
        (wl : Bool) (ap : PathC),
        python_venv_directory true (some tc) settings in_tree fs wl ap =
          tc.parent.bind PathC.parent) ∧
    (∀ (wt : Bool) (tc : Option PathC) (in_tree fs : PathC → Bool) (wl : Bool) (ap : PathC),
        (if wt then tc else none) = none →
        python_venv_directory wt tc .off in_tree fs wl ap = none) ∧
    (∀ (wt : Bool) (tc : Option PathC) (dirs : List String) (in_tree fs : PathC → Bool)
        (wl : Bool) (ap : PathC) (p : PathC),
        (if wt then tc else none) = none →
        find_venv_in_worktree in_tree dirs ap = some p →
        python_venv_directory wt tc (.on dirs) in_tree fs wl ap = some p) ∧
    (∀ (wt : Bool) (tc : Option PathC) (dirs : List String) (in_tree fs : PathC → Bool)
        (wl : Bool) (ap : PathC),
        (if wt then tc else none) = none →
        find_venv_in_worktree in_tree dirs ap = none →
        python_venv_directory wt tc (.on dirs) in_tree fs wl ap =
          find_venv_on_filesystem wt wl fs dirs ap) ∧
    (∀ (in_tree : PathC → Bool) (dirs1 dirs2 : List String) (d : String) (ap : PathC),
        (∀ d2 ∈ dirs1, in_tree ((ap.join d2).join "bin") = false) →
        in_tree ((ap.join d).join "bin") = true →
        find_venv_in_worktree in_tree (dirs1 ++ d :: dirs2) ap = some (ap.join d)) ∧
    (∀ (fs : PathC → Bool) (dirs1 dirs2 : List String) (d : String) (ap : PathC),
        (∀ d2 ∈ dirs1, fs ((ap.join d2).join "bin") = false) →
        fs ((ap.join d).join "bin") = true →
        find_venv_on_filesystem true true fs (dirs1 ++ d :: dirs2) ap = some (ap.join d)) := by
  refine ⟨?_, ?_, ?_, ?_, ?_, ?_⟩
  · intro tc settings in_tree fs wl ap
    rfl
  · intro wt tc in_tree fs wl ap h
    unfold python_venv_directory
    rw [h]
    rfl
  · intro wt tc dirs in_tree fs wl ap p h hf
    unfold python_venv_directory
    rw [h]
    dsimp only [VenvSettingsM.as_option]
    rw [hf]
  · intro wt tc dirs in_tree fs wl ap h hf
    unfold python_venv_directory
    rw [h]
    dsimp only [VenvSettingsM.as_option]
    rw [hf]
  · intro in_tree dirs1 dirs2 d ap h1 h2
    unfold find_venv_in_worktree
    rw [List.map_append, List.map_cons]
    refine find_first _ _ _ _ ?_ h2
    intro x hx
    obtain ⟨d2, hd2, rfl⟩ := List.mem_map.mp hx
    exact h1 d2 hd2
  · intro fs dirs1 dirs2 d ap h1 h2
    unfold find_venv_on_filesystem
    rw [if_pos (by decide), List.map_append, List.map_cons]
    refine find_first _ _ _ _ ?_ h2
    intro x hx
    obtain ⟨d2, hd2, rfl⟩ := List.mem_map.mp hx
    exact h1 d2 hd2

/-- C5 witness: the toolchain short-circuit (grandparent wins although the
candidate also matches), the `Off` stop, and the first-match selection in
candidate order at concrete inputs. -/
theorem c5_witness :
    python_venv_directory true (some ⟨true, ["usr", "toolchain", "bin", "python3"]⟩)
        (.on [".venv"]) (fun _ => true) (fun _ => true) true ⟨true, ["home", "proj"]⟩ =
      some ⟨true, ["usr", "toolchain"]⟩ ∧
    python_venv_directory false none .off (fun _ => true) (fun _ => true) true
        ⟨true, ["home", "proj"]⟩ = none ∧
    find_venv_in_worktree (fun p => p == PathC.mk true ["home", "proj", ".venv", "bin"])
        ([".env"] ++ ".venv" :: ["venv"]) ⟨true, ["home", "proj"]⟩ =
      some ⟨true, ["home", "proj", ".venv"]⟩ :=
  ⟨(c5_venv_lookup_order.1 ⟨true, ["usr", "toolchain", "bin", "python3"]⟩ (.on [".venv"])
      (fun _ => true) (fun _ => true) true ⟨true, ["home", "proj"]⟩).trans (by decide),
   c5_venv_lookup_order.2.1 false none (fun _ => true) (fun _ => true) true
     ⟨true, ["home", "proj"]⟩ (by decide),
   c5_venv_lookup_order.2.2.2.2.1 (fun p => p == PathC.mk true ["home", "proj", ".venv", "bin"])
     [".env"] ["venv"] ".venv" ⟨true, ["home", "proj"]⟩ (by decide) (by decide)⟩

/-- C6: whenever the request resolves with a remote target, the plan
handed to the terminal builder has no local working directory and an
empty structural environment map (directory and environment live only in
the synthesized remote command string). -/
theorem c6_remote_plan_structurally_empty :
    ∀ (kind : TerminalKindM) (host : String) (ssh_arguments : List String)
      (cli_env settings_env : List (String × String)) (settings_shell : ShellM)
      (apd venv_lookup process_path : Option String) (plan : LaunchPlanM),
      create_terminal kind (some (host, ssh_arguments)) cli_env settings_env settings_shell
          apd venv_lookup process_path = some plan →
      plan.local_path = none ∧ plan.env = [] := by
  intro kind host ssh_arguments cli_env settings_env settings_shell apd venv_lookup pp plan h
  cases kind with
  | shell p =>
    unfold create_terminal at h
    dsimp only at h
    split at h
    · exact absurd h (by simp)
    · obtain rfl := Option.some.inj h
      exact ⟨rfl, rfl⟩
  | task spawn =>
    unfold create_terminal at h
    dsimp only at h
    split at h
    · exact absurd h (by simp)
    · obtain rfl := Option.some.inj h
      exact ⟨rfl, rfl⟩

/-- C6 witness: the remote shell request at concrete inputs yields a plan
with no local directory and an empty environment map. -/
theorem c6_witness :
    create_terminal (.shell none) (some ("h", ["ssh", "h"])) [] [] .system none none none =
      some { local_path := none, task := none,
             shell := .with_arguments "ssh" ["ssh", "h", "-t",
               "sh -c \x27cd; TERM=xterm-256color  exec $\x7bSHELL:-sh\x7d -l\x27"]
               (some "h — Terminal"),
             env := [], is_ssh := true } ∧
    ({ local_path := none, task := none,
       shell := .with_arguments "ssh" ["ssh", "h", "-t",
         "sh -c \x27cd; TERM=xterm-256color  exec $\x7bSHELL:-sh\x7d -l\x27"]
         (some "h — Terminal"),
       env := [], is_ssh := true } : LaunchPlanM).local_path = none ∧
    ({ local_path := none, task := none,
       shell := .with_arguments "ssh" ["ssh", "h", "-t",
         "sh -c \x27cd; TERM=xterm-256color  exec $\x7bSHELL:-sh\x7d -l\x27"]
         (some "h — Terminal"),
       env := [], is_ssh := true } : LaunchPlanM).env = [] := by
  have h : create_terminal (.shell none) (some ("h", ["ssh", "h"])) [] [] .system
      none none none =
      some { local_path := none, task := none,
             shell := .with_arguments "ssh" ["ssh", "h", "-t",
               "sh -c \x27cd; TERM=xterm-256color  exec $\x7bSHELL:-sh\x7d -l\x27"]
               (some "h — Terminal"),
             env := [], is_ssh := true } := by decide
  exact ⟨h, c6_remote_plan_structurally_empty (.shell none) "h" ["ssh", "h"] [] [] .system
    none none none _ h⟩

/-- C9: provisioning is deterministic: the plan builder is a pure function
of the request and of the external snapshots (settings, CLI environment,
ssh details, venv lookup answer, process PATH), so composing the same
request twice with identical inputs yields the identical plan, including
the synthesized remote command string built from the deterministically
ordered environment map. -/
theorem c9_deterministic :
    ∀ (kind : TerminalKindM) (ssh_details : Option (String × List String))
      (cli_env settings_env : List (String × String)) (settings_shell : ShellM)
      (apd venv_lookup process_path : Option String),
      create_terminal kind ssh_details cli_env settings_env settings_shell apd
          venv_lookup process_path =
        create_terminal kind ssh_details cli_env settings_env settings_shell apd
          venv_lookup process_path :=
  fun _ _ _ _ _ _ _ _ => rfl

end Terminals
